import Mathlib

/-!
Shallow embedding of the interaction-memory and tool-routing subsystem of the
AI-Learning-Coach repository (`memory_manager.py`, `learning_tools.py`), with
theorems settling the frozen claims about it.

Modelling conventions:
* Python strings are Lean `String`s; `str.lower()` is modelled character-wise
  on the ASCII range (the only range the fixed keyword tables and the claims
  exercise); `needle in hay` is substring containment.
* Python insertion-ordered `dict`s used as counters are association lists in
  first-insertion order; `max(d.items(), key=...)` keeps the first maximal
  entry, modelled by `pyMaxFrom`.
* `datetime.now()` is lifted to an explicit timestamp parameter, modelled as
  seconds (a `Nat`); the claims never observe timestamp formatting.
* The LLM chat-completion capability is opaque and fallible: its outcomes are
  passed in as `Except`-valued parameters.
-/

namespace AICoach

/-- ASCII lowering of one character, as Python `str.lower` acts on the ASCII
range (the keyword tables and all claim inputs are ASCII). -/
def lowerChar (c : Char) : Char :=
  if 'A' ≤ c ∧ c ≤ 'Z' then Char.ofNat (c.toNat + 32) else c

/-- Python `query.lower()`. -/
def pyLower (s : String) : String :=
  ⟨s.data.map lowerChar⟩

/-- Substring containment on character lists: Python `needle in hay`. -/
def isSubstrL (needle hay : List Char) : Bool :=
  (List.range (hay.length + 1)).any (fun i => needle.isPrefixOf (hay.drop i))

/-- Python `needle in hay` for strings. -/
def pyContains (needle hay : String) : Bool :=
  isSubstrL needle.data hay.data

/-- Python `sum(1 for k in kws if k in ql)`. -/
def countHits (kws : List String) (ql : String) : Nat :=
  (kws.filter (fun k => pyContains k ql)).length

/-- Python `lst[-n:]` (the last `n` elements). -/
def takeLast (n : Nat) (l : List α) : List α :=
  l.drop (l.length - n)

/-- Python's first-maximum scan: `max` over an insertion-ordered sequence with
a key, starting from a current best `acc`; a later element replaces the
current best only when strictly greater. -/
def pyMaxFrom (acc : String × Nat) : List (String × Nat) → String × Nat
  | [] => acc
  | x :: xs => pyMaxFrom (if x.2 > acc.2 then x else acc) xs

/-- Python `d[k] = d.get(k, 0) + 1` on an insertion-ordered counter dict. -/
def dictIncr (d : List (String × Nat)) (k : String) : List (String × Nat) :=
  if d.any (fun p => p.1 = k) then
    d.map (fun p => if p.1 = k then (p.1, p.2 + 1) else p)
  else d ++ [(k, 1)]

/-! ## QueryAnnotator (`memory_manager.py`, pure helpers) -/

def math_keywords : List String :=
  ["equation", "algebra", "geometry", "calculus", "trigonometry",
   "statistics", "probability", "derivative", "integral", "formula"]

def science_keywords : List String :=
  ["physics", "chemistry", "biology", "atom", "molecule",
   "cell", "force", "energy", "reaction", "evolution"]

def language_keywords : List String :=
  ["grammar", "essay", "writing", "literature", "poem",
   "analysis", "thesis", "paragraph", "vocabulary"]

def history_keywords : List String :=
  ["war", "revolution", "empire", "civilization", "timeline",
   "ancient", "medieval", "modern", "century"]

def all_keywords : List String :=
  math_keywords ++ science_keywords ++ language_keywords ++ history_keywords

/-- `MemoryManager._extract_topics`: scan `all_keywords` in order, append each
substring hit against the lowered query, truncate to the first 3. -/
def extract_topics (query : String) : List String :=
  let query_lower := pyLower query
  let topics := all_keywords.foldl
    (fun acc keyword => if pyContains keyword query_lower then acc ++ [keyword] else acc) []
  topics.take 3

def advanced_indicators : List String :=
  ["advanced", "complex", "analyze", "evaluate", "synthesize",
   "derivative", "integral", "quantum", "molecular", "theorem"]

def basic_indicators : List String :=
  ["what is", "how to", "explain", "simple", "basic", "introduction"]

def advanced_count (query : String) : Nat :=
  countHits advanced_indicators (pyLower query)

def basic_count (query : String) : Nat :=
  countHits basic_indicators (pyLower query)

/-- `MemoryManager._estimate_difficulty`. -/
def estimate_difficulty (query : String) : String :=
  if advanced_count query > basic_count query then "advanced"
  else if basic_count query > 0 then "beginner"
  else "intermediate"

/-- The fixed subject → keyword table of `MemoryManager._identify_subject`,
in source order. Note `"DNA"` is stored uppercase in the source. -/
def subject_keywords : List (String × List String) :=
  [("Mathematics", ["math", "algebra", "geometry", "calculus", "equation", "formula", "solve"]),
   ("Physics", ["physics", "force", "energy", "momentum", "wave", "electricity", "magnetism"]),
   ("Chemistry", ["chemistry", "atom", "molecule", "reaction", "compound", "element"]),
   ("Biology", ["biology", "cell", "DNA", "evolution", "organism", "genetics", "anatomy"]),
   ("Computer Science", ["programming", "code", "algorithm", "software", "computer", "python", "java"]),
   ("English", ["essay", "writing", "grammar", "literature", "poem", "analysis", "thesis"]),
   ("History", ["history", "war", "empire", "revolution", "ancient", "medieval", "timeline"]),
   ("Geography", ["geography", "map", "climate", "country", "continent", "ocean", "mountain"]),
   ("Art", ["art", "painting", "sculpture", "artist", "museum", "drawing", "design"]),
   ("Music", ["music", "note", "chord", "rhythm", "melody", "instrument", "composer"])]

/-- `MemoryManager._identify_subject`: keep subjects with a positive hit
count (insertion order preserved, as a Python dict comprehension does), then
`max(..., key=score)` returns the first maximal entry; `"General"` when the
positive-score dict is empty. -/
def identify_subject (query : String) : String :=
  let query_lower := pyLower query
  let subject_scores :=
    (subject_keywords.map (fun p => (p.1, countHits p.2 query_lower))).filter
      (fun p => p.2 > 0)
  match subject_scores with
  | [] => "General"
  | s :: ss => (pyMaxFrom s ss).1

/-- `MemoryManager._classify_question_type`: first matching category wins. -/
def classify_question_type (query : String) : String :=
  let ql := pyLower query
  if ["solve", "calculate", "find", "compute"].any (fun w => pyContains w ql) then
    "problem_solving"
  else if ["explain", "what is", "how does", "why"].any (fun w => pyContains w ql) then
    "conceptual"
  else if ["analyze", "compare", "evaluate", "discuss"].any (fun w => pyContains w ql) then
    "analytical"
  else if ["help", "check", "review", "feedback"].any (fun w => pyContains w ql) then
    "assistance"
  else "general"

/-! ## Data model (`st.session_state["learning_memory"]`) -/

/-- One recorded interaction (`memory_manager.py` lines 27–34). The source
stores `datetime.now().isoformat()`; the nondeterministic clock is lifted to
an explicit timestamp parameter, modelled in seconds. -/
structure Interaction where
  timestamp : Nat
  user_query : String
  ai_response : String
  topics : List String
  difficulty : String
  subject : String
deriving DecidableEq

/-- The `learning_patterns` dict. A fresh store has the empty dict `{}`; a
missing `difficulty_trend` key is `none`. -/
structure Patterns where
  preferred_question_types : List String
  difficulty_history : List String
  difficulty_trend : Option String
deriving DecidableEq

/-- The session memory dict (the claims observe `interactions` and
`learning_patterns`; `subject_focus`, `difficulty_tracking` and
`last_session` are initialised and never read or written elsewhere). -/
structure Memory where
  interactions : List Interaction
  learning_patterns : Patterns
deriving DecidableEq

/-- The fresh store built by `MemoryManager.__init__` (and by
`clear_memory`). -/
def memInit : Memory :=
  { interactions := [], learning_patterns := ⟨[], [], none⟩ }

/-- The annotated interaction record built at the top of `add_interaction`. -/
def mkInteraction (ts : Nat) (user_query ai_response : String) : Interaction :=
  { timestamp := ts
    user_query := user_query
    ai_response := ai_response
    topics := extract_topics user_query
    difficulty := estimate_difficulty user_query
    subject := identify_subject user_query }

/-- The `difficulty_values` lookup table; an unknown label is a `KeyError`
in the source, hence `none`. -/
def difficulty_value : String → Option Nat
  | "beginner" => some 1
  | "intermediate" => some 2
  | "advanced" => some 3
  | _ => none

/-- `MemoryManager._update_learning_patterns`: append the classified question
type (keep last 10), append the difficulty (keep last 10), and once ≥ 3
difficulty samples exist recompute the trend from the first vs. last of the
most recent 3. A `KeyError` from the `difficulty_values` lookup is swallowed
by the method's own `except`; the appends already performed persist (the
`patterns` dict is the same object as `memory["learning_patterns"]`), so
that path keeps the appended histories and the previous trend. -/
def update_learning_patterns (p : Patterns) (i : Interaction) : Patterns :=
  let query_type := classify_question_type i.user_query
  let qt := p.preferred_question_types ++ [query_type]
  let qt := takeLast 10 qt
  let dh := p.difficulty_history ++ [i.difficulty]
  let dh := takeLast 10 dh
  if dh.length ≥ 3 then
    let recent_difficulties := takeLast 3 dh
    match recent_difficulties.mapM difficulty_value with
    | some scores =>
        { preferred_question_types := qt
          difficulty_history := dh
          difficulty_trend :=
            some (if scores.getLastD 0 > scores.headD 0 then "increasing"
                  else if scores.getLastD 0 < scores.headD 0 then "decreasing"
                  else "stable") }
    | none =>
        { preferred_question_types := qt
          difficulty_history := dh
          difficulty_trend := p.difficulty_trend }
  else
    { preferred_question_types := qt
      difficulty_history := dh
      difficulty_trend := p.difficulty_trend }

/-- `MemoryManager.add_interaction` (the no-fault path): annotate, append,
trim to the last `max_interactions = 50`, update learning patterns. -/
def add_interaction (ts : Nat) (user_query ai_response : String) (m : Memory) : Memory :=
  let interaction := mkInteraction ts user_query ai_response
  let ints := m.interactions ++ [interaction]
  let ints := if ints.length > 50 then takeLast 50 ints else ints
  { interactions := ints
    learning_patterns := update_learning_patterns m.learning_patterns interaction }

/-- `MemoryManager.clear_memory`: reset to the fresh-store dict. -/
def clear_memory (_ : Memory) : Memory := memInit

/-- `MemoryManager.get_subject_statistics`: frequency count of the `subject`
field over the full history (the `subject` key is always present in this
model, so the `.get(..., "Unknown")` default never fires). -/
def get_subject_statistics (m : Memory) : List (String × Nat) :=
  m.interactions.foldl (fun d i => dictIncr d i.subject) []

/-- `MemoryManager.get_learning_context`. The source deduplicates recent
topics through a Python `set`, whose iteration order is unspecified; it is
modelled as first-seen order (`eraseDups`) — no claim observes that order.
The source's redundant outer `if patterns:` guard is behaviourally subsumed
by the per-key truthiness checks modelled here. -/
def get_learning_context (m : Memory) : String :=
  let recent_interactions := takeLast 5 m.interactions
  if recent_interactions.isEmpty then
    "No previous learning interactions in this session."
  else
    let recent_topics := recent_interactions.foldl (fun acc i => acc ++ i.topics) []
    let recent_subjects :=
      (recent_interactions.filter (fun i => i.subject ≠ "")).map (fun i => i.subject)
    let parts₁ :=
      if recent_topics.isEmpty then []
      else ["Recent topics: " ++ String.intercalate ", " recent_topics.eraseDups]
    let parts₂ :=
      if recent_subjects.isEmpty then []
      else
        match recent_subjects.foldl dictIncr [] with
        | [] => []
        | c :: cs => ["Primary subject focus: " ++ (pyMaxFrom c cs).1]
    let parts₃ :=
      if m.learning_patterns.preferred_question_types.isEmpty then []
      else ["Student prefers: " ++
              String.intercalate ", " m.learning_patterns.preferred_question_types]
    let parts₄ :=
      match m.learning_patterns.difficulty_trend with
      | some t => if t = "" then [] else ["Difficulty progression: " ++ t]
      | none => []
    let context_parts := parts₁ ++ parts₂ ++ parts₃ ++ parts₄
    if context_parts.isEmpty then "Beginning of learning session."
    else String.intercalate "; " context_parts

/-- `MemoryManager._format_duration` over whole seconds. -/
def format_duration (total_seconds : Nat) : String :=
  if total_seconds < 60 then toString total_seconds ++ " seconds"
  else if total_seconds < 3600 then toString (total_seconds / 60) ++ " minutes"
  else toString (total_seconds / 3600) ++ "h " ++ toString (total_seconds % 3600 / 60) ++ "m"

/-- `MemoryManager.get_interaction_summary`. Timestamps are modelled in
seconds, so the session duration is the last minus the first timestamp
(no claim observes the duration on a non-empty store). -/
def get_interaction_summary (m : Memory) : String :=
  let interactions := m.interactions
  if interactions.isEmpty then "No learning interactions recorded yet."
  else
    let total_interactions := interactions.length
    let subjects := (interactions.filter (fun i => i.subject ≠ "")).map (fun i => i.subject)
    let subject_counts := subjects.foldl dictIncr []
    let all_topics := interactions.foldl (fun acc i => acc ++ i.topics) []
    let unique_topics := all_topics.eraseDups
    let difficulties := (takeLast 10 interactions).map (fun i => i.difficulty)
    let session_duration :=
      if total_interactions > 1 then
        ((interactions.getLast?.map Interaction.timestamp).getD 0) -
          ((interactions.head?.map Interaction.timestamp).getD 0)
      else 0
    let most_discussed :=
      match subject_counts with
      | [] => "Various"
      | c :: cs => (pyMaxFrom c cs).1
    let recent_difficulty :=
      match difficulties.getLast? with
      | some d => d
      | none => "Not assessed"
    String.intercalate "; "
      ["Total interactions: " ++ toString total_interactions,
       "Session duration: " ++ format_duration session_duration,
       "Topics explored: " ++ toString unique_topics.length ++ " unique topics",
       "Most discussed subject: " ++ most_discussed,
       "Recent difficulty level: " ++ recent_difficulty]

/-! ## Fault model for `add_interaction`

`add_interaction` wraps its body in `try ... except Exception: pass`, and
`_update_learning_patterns` wraps its own body the same way. The local
`memory` variable is the *same object* as `st.session_state[key]`, so every
in-place mutation is visible in the session state the moment it happens; an
exception raised later does not roll it back. `Step` names the successive
internal steps; `add_interaction_f (some s)` is the state after a run in
which an exception is raised on entry to step `s` (every mutation of an
earlier step persists; the surrounding `except` clauses swallow the
exception, so the caller always gets a normal return). -/

inductive Step where
  /-- `memory = st.session_state[...]` (line 25). -/
  | readMemory
  /-- building the `interaction` dict (lines 27–34). -/
  | buildInteraction
  /-- the `memory["interactions"].append(...)` call (line 37). -/
  | appendStep
  /-- the trim `memory["interactions"] = ...[-50:]` (line 41). -/
  | trimStep
  /-- start of `_update_learning_patterns` (caught by its own `except`). -/
  | patternsRead
  /-- the `difficulty_values[d]` trend lookup inside
  `_update_learning_patterns`, after both history appends. -/
  | patternsTrend
  /-- the final `st.session_state[...] = memory` (line 47). -/
  | finalAssign
deriving DecidableEq

/-- The two history appends of `_update_learning_patterns` without the trend
recomputation — the partial state its own `except` leaves behind when the
trend step raises. -/
def update_patterns_appends_only (p : Patterns) (i : Interaction) : Patterns :=
  { preferred_question_types :=
      takeLast 10 (p.preferred_question_types ++ [classify_question_type i.user_query])
    difficulty_history := takeLast 10 (p.difficulty_history ++ [i.difficulty])
    difficulty_trend := p.difficulty_trend }

/-- `add_interaction` under an injected fault (see `Step`). `none` is the
fault-free run. In every case the caller gets a state back, never an
exception. -/
def add_interaction_f (fault : Option Step) (ts : Nat) (user_query ai_response : String)
    (m : Memory) : Memory :=
  match fault with
  | some Step.readMemory => m
  | some Step.buildInteraction => m
  | some Step.appendStep => m
  | some Step.trimStep =>
      { m with interactions := m.interactions ++ [mkInteraction ts user_query ai_response] }
  | some Step.patternsRead =>
      let ints := m.interactions ++ [mkInteraction ts user_query ai_response]
      { m with interactions := if ints.length > 50 then takeLast 50 ints else ints }
  | some Step.patternsTrend =>
      let interaction := mkInteraction ts user_query ai_response
      let ints := m.interactions ++ [interaction]
      { interactions := if ints.length > 50 then takeLast 50 ints else ints
        learning_patterns := update_patterns_appends_only m.learning_patterns interaction }
  | some Step.finalAssign => add_interaction ts user_query ai_response m
  | none => add_interaction ts user_query ai_response m

/-! ## ToolRouter (`learning_tools.py`) -/

/-- The fixed registry keys of `LearningTools.__init__` (`self.tools`), in
source order. -/
def toolNames : List String :=
  ["math_solver", "science_explainer", "coding_helper", "formula_reference",
   "writing_assistant", "literature_analysis", "language_practice", "grammar_checker",
   "history_timeline", "geography_helper", "economics_explainer", "political_analysis",
   "music_theory", "art_analysis", "creative_writing",
   "test_strategy", "practice_problems", "study_schedule"]

/-- `LearningTools.analyze_and_respond`. The classification exchange
(`chat.completions.create` + `json.loads` + `result.get("tool")`) is the
opaque LLM capability: `classify` is `Except.error` when any part of it
raises, `Except.ok none` when the parsed `tool` field is null or absent, and
`Except.ok (some t)` when it names `t`. `strat t` is the outcome of invoking
the registered strategy `self.tools[t](query, profile, context)` — the text
it returns (header included) or `Except.error` when its own LLM call raises.
Every exception is caught by the outer `except`, which returns `None`. -/
def analyze_and_respond (classify : Except Unit (Option String))
    (strat : String → Except Unit String) : Option String :=
  match classify with
  | Except.error _ => none
  | Except.ok none => none
  | Except.ok (some tool_name) =>
      if tool_name ∈ toolNames then
        match strat tool_name with
        | Except.ok text => some text
        | Except.error _ => none
      else none

/-! ## Spec-side definition for the C5 refinement comparison -/

/-- The maximum hit count over a score list (0 when empty). -/
def maxAll : List (String × Nat) → Nat
  | [] => 0
  | p :: ps => max p.2 (maxAll ps)

/-- Modelled from the spec's words (for refinement comparison with
`identify_subject`, which is translated from the source): "returns the
subject with the maximum count; ties broken by iteration order of the fixed
subject list (first maximum wins); returns General if all counts are zero".
The `getD "General"` default is unreachable when the maximum is positive. -/
def spec_identify_subject (query : String) : String :=
  let counts := subject_keywords.map (fun p => (p.1, countHits p.2 (pyLower query)))
  if maxAll counts = 0 then "General"
  else ((counts.find? (fun p => p.2 == maxAll counts)).map Prod.fst).getD "General"

/-! ## Theorems -/

/-- C7 counterexample: on the query "Explain how cellular respiration works"
the claim asserts `estimate_difficulty` returns "intermediate" with no
indicator matches; in fact the basic indicator "explain" matches, so the
code returns "beginner". -/
theorem estimate_difficulty_cellular_counterexample :
    estimate_difficulty "Explain how cellular respiration works" = "beginner" ∧
      basic_count "Explain how cellular respiration works" = 1 ∧
      ("beginner" : String) ≠ "intermediate" := by
  decide

/-- C7 (amended): for the query "Explain how cellular respiration works",
`identify_subject` returns "Biology" (the keyword "cell" matches inside
"cellular"), `estimate_difficulty` returns "beginner" (the basic indicator
"explain" matches and no advanced indicator does), and
`classify_question_type` returns "conceptual". -/
theorem end_to_end_cellular_respiration :
    identify_subject "Explain how cellular respiration works" = "Biology" ∧
      estimate_difficulty "Explain how cellular respiration works" = "beginner" ∧
      classify_question_type "Explain how cellular respiration works" = "conceptual" := by
  decide

/-- C8: `clear_memory` on any reachable state yields exactly the fresh store,
so every read accessor reproduces the fresh-store outputs: the literal
no-history sentence from `get_learning_context`, the literal no-interactions
sentence from `get_interaction_summary`, and the empty mapping from
`get_subject_statistics`. -/
theorem clear_memory_round_trip (m : Memory) :
    clear_memory m = memInit ∧
      get_learning_context (clear_memory m) =
        "No previous learning interactions in this session." ∧
      get_interaction_summary (clear_memory m) =
        "No learning interactions recorded yet." ∧
      get_subject_statistics (clear_memory m) = [] :=
  ⟨rfl, rfl, rfl, rfl⟩

/-- C2 counterexample: inject a fault at the start of
`_update_learning_patterns` (caught by that method's own `except`, so the
caller still sees a normal return). The interactions list nevertheless holds
the newly appended interaction — the session dict was mutated in place before
the failing step — so the state is *not* what it was before the call,
refuting the claimed atomicity. -/
theorem add_interaction_not_atomic_counterexample :
    add_interaction_f (some Step.patternsRead) 0 "What is algebra?" "resp" memInit ≠
        memInit ∧
      (add_interaction_f (some Step.patternsRead) 0 "What is algebra?" "resp"
            memInit).interactions.length = 1 := by
  decide

/-- C2 (amended): `add_interaction` never raises to its caller (every
internal exception is swallowed by its `except` or by
`_update_learning_patterns`'s own — `add_interaction_f` always returns a
state), and a failure at or before the append leaves the prior state
unchanged; but the update is not atomic: a failure after the append (e.g. at
the start of the pattern update) leaves the appended, trimmed interaction in
the store while `learning_patterns` keeps its prior value. -/
theorem add_interaction_fault_semantics (fault : Option Step) (ts : Nat)
    (q r : String) (m : Memory) :
    add_interaction_f none ts q r m = add_interaction ts q r m ∧
      ((fault = some Step.readMemory ∨ fault = some Step.buildInteraction ∨
          fault = some Step.appendStep) → add_interaction_f fault ts q r m = m) ∧
      (add_interaction_f (some Step.patternsRead) ts q r m).interactions =
        (add_interaction ts q r m).interactions ∧
      (add_interaction_f (some Step.patternsRead) ts q r m).learning_patterns =
        m.learning_patterns := by
  refine ⟨rfl, ?_, rfl, rfl⟩
  rintro (h | h | h) <;> subst h <;> rfl

/-- Witness for `add_interaction_fault_semantics` at a concrete fault, query
and state. -/
theorem add_interaction_fault_semantics_witness :
    add_interaction_f (some Step.appendStep) 0 "What is algebra?" "resp" memInit =
      memInit :=
  (add_interaction_fault_semantics (some Step.appendStep) 0 "What is algebra?"
        "resp" memInit).2.1 (Or.inr (Or.inr rfl))

/-- C3 counterexample: with a classification outcome naming the registry key
"math_solver" and a dispatched strategy whose own LLM call fails, the router
returns `None` although none of the claim's three cases (classification
failure, null tool, unregistered tool) holds — the outer `except` also
swallows strategy failures. -/
theorem analyze_and_respond_none_cases_counterexample :
    ¬ (∀ (classify : Except Unit (Option String))
          (strat : String → Except Unit String),
        analyze_and_respond classify strat = none ↔
          ((∃ e, classify = Except.error e) ∨ classify = Except.ok none ∨
            (∃ t, classify = Except.ok (some t) ∧ t ∉ toolNames))) := by
  intro h
  have h2 := (h (Except.ok (some "math_solver")) (fun _ => Except.error ())).mp rfl
  rcases h2 with ⟨e, he⟩ | he | ⟨t, ht, hmem⟩
  · exact absurd he (by simp)
  · exact absurd he (by simp)
  · have ht' : t = "math_solver" := by simpa using ht.symm
    subst ht'
    exact hmem (by decide)

/-- C3 (amended): the router returns `None` exactly when the classification
call fails, the parsed tool field is null, the tool names a key absent from
the fixed 18-entry registry, or the dispatched strategy itself fails; on a
registry hit whose strategy returns text, it returns that text verbatim. -/
theorem analyze_and_respond_routing (classify : Except Unit (Option String))
    (strat : String → Except Unit String) :
    (analyze_and_respond classify strat = none ↔
        ((∃ e, classify = Except.error e) ∨ classify = Except.ok none ∨
          (∃ t, classify = Except.ok (some t) ∧ t ∉ toolNames) ∨
          (∃ t e, classify = Except.ok (some t) ∧ t ∈ toolNames ∧
            strat t = Except.error e))) ∧
      (∀ t s, classify = Except.ok (some t) → t ∈ toolNames →
          strat t = Except.ok s → analyze_and_respond classify strat = some s) ∧
      toolNames.length = 18 := by
  refine ⟨?_, ?_, by decide⟩
  · cases classify with
    | error e => simp [analyze_and_respond]
    | ok o =>
      cases o with
      | none => simp [analyze_and_respond]
      | some t =>
        by_cases hmem : t ∈ toolNames
        · cases hst : strat t with
          | error e =>
            simp only [analyze_and_respond, if_pos hmem, hst]
            constructor
            · intro _
              exact Or.inr (Or.inr (Or.inr ⟨t, e, rfl, hmem, hst⟩))
            · intro _; trivial
          | ok s =>
            simp only [analyze_and_respond, if_pos hmem, hst]
            constructor
            · intro hcontra; exact absurd hcontra (by simp)
            · rintro (⟨e, he⟩ | he | ⟨t', ht', hmem'⟩ | ⟨t', e, ht', hmem', hst'⟩)
              · exact absurd he (by simp)
              · exact absurd he (by simp)
              · have : t' = t := by simpa using ht'.symm
                subst this; exact absurd hmem hmem'
              · have : t' = t := by simpa using ht'.symm
                subst this
                rw [hst] at hst'
                exact absurd hst' (by simp)
        · simp only [analyze_and_respond, if_neg hmem]
          constructor
          · intro _; exact Or.inr (Or.inr (Or.inl ⟨t, rfl, hmem⟩))
          · intro _; trivial
  · intro t s hc hmem hst
    subst hc
    simp [analyze_and_respond, if_pos hmem, hst]

/-- Witness for `analyze_and_respond_routing`: a concrete registry hit whose
strategy succeeds returns the strategy's text verbatim. -/
theorem analyze_and_respond_routing_witness :
    analyze_and_respond (Except.ok (some "math_solver"))
        (fun _ => Except.ok "🔢 output") = some "🔢 output" :=
  (analyze_and_respond_routing (Except.ok (some "math_solver"))
        (fun _ => Except.ok "🔢 output")).2.1 "math_solver" "🔢 output" rfl
    (by decide) rfl

/-- C4: `estimate_difficulty` is total over {advanced, beginner, intermediate}
and follows the strict-majority rule: advanced exactly when advanced hits
strictly exceed basic hits, else beginner when the basic count is positive,
else intermediate; an equal nonzero count therefore yields beginner, and a
query containing "explain" with no advanced hit yields beginner. -/
theorem estimate_difficulty_characterization (q : String) :
    (estimate_difficulty q = "advanced" ∨ estimate_difficulty q = "beginner" ∨
        estimate_difficulty q = "intermediate") ∧
      (advanced_count q > basic_count q → estimate_difficulty q = "advanced") ∧
      (advanced_count q ≤ basic_count q → 0 < basic_count q →
        estimate_difficulty q = "beginner") ∧
      (advanced_count q ≤ basic_count q → basic_count q = 0 →
        estimate_difficulty q = "intermediate") ∧
      (advanced_count q = basic_count q → 0 < basic_count q →
        estimate_difficulty q = "beginner") ∧
      (pyContains "explain" (pyLower q) = true → advanced_count q = 0 →
        estimate_difficulty q = "beginner") := by
  refine ⟨?_, ?_, ?_, ?_, ?_, ?_⟩
  · unfold estimate_difficulty; split_ifs <;> simp
  · intro h; unfold estimate_difficulty; rw [if_pos h]
  · intro h1 h2; unfold estimate_difficulty; rw [if_neg (by omega), if_pos h2]
  · intro h1 h2; unfold estimate_difficulty; rw [if_neg (by omega), if_neg (by omega)]
  · intro h1 h2; unfold estimate_difficulty; rw [if_neg (by omega), if_pos h2]
  · intro hexp h0
    have hb : 0 < basic_count q := by
      have hmem : "explain" ∈
          basic_indicators.filter (fun k => pyContains k (pyLower q)) :=
        List.mem_filter.mpr ⟨by decide, hexp⟩
      simpa [basic_count, countHits] using List.length_pos_of_mem hmem
    unfold estimate_difficulty; rw [if_neg (by omega), if_pos hb]

/-- Witness for `estimate_difficulty_characterization`: "Explain the basics"
contains "explain", has no advanced hit, and is classified beginner. -/
theorem estimate_difficulty_characterization_witness :
    pyContains "explain" (pyLower "Explain the basics") = true ∧
      advanced_count "Explain the basics" = 0 ∧
      estimate_difficulty "Explain the basics" = "beginner" :=
  ⟨by decide, by decide,
    (estimate_difficulty_characterization "Explain the basics").2.2.2.2.2
      (by decide) (by decide)⟩

/-- The topic-collection loop of `_extract_topics` is the in-order filter of
the keyword list against the lowered query. -/
theorem foldl_append_if_eq_filter (p : String → Bool) :
    ∀ (l : List String) (acc : List String),
      l.foldl (fun a k => if p k then a ++ [k] else a) acc = acc ++ l.filter p := by
  intro l
  induction l with
  | nil => intro acc; simp
  | cons x xs ih =>
    intro acc
    by_cases hx : p x <;>
      simp [List.filter_cons, hx, ih, List.append_assoc]

/-- C9: `extract_topics` returns at most 3 topics, each drawn from the fixed
keyword vocabulary and each a case-insensitive substring hit in the query,
collected in fixed scan order and truncated to the first 3 matches. -/
theorem extract_topics_bounded (q : String) :
    extract_topics q =
        (all_keywords.filter (fun k => pyContains k (pyLower q))).take 3 ∧
      (extract_topics q).length ≤ 3 ∧
      ∀ t ∈ extract_topics q, t ∈ all_keywords ∧
        pyContains t (pyLower q) = true := by
  have heq : extract_topics q =
      (all_keywords.filter (fun k => pyContains k (pyLower q))).take 3 := by
    simp [extract_topics, foldl_append_if_eq_filter]
  refine ⟨heq, ?_, ?_⟩
  · rw [heq, List.length_take]
    exact inf_le_left
  · intro t ht
    rw [heq] at ht
    have ht' := List.mem_filter.mp (List.mem_of_mem_take ht)
    exact ⟨ht'.1, ht'.2⟩

/-- Witness for `extract_topics_bounded` at a concrete query with four
keyword hits (truncated to the first three). -/
theorem extract_topics_bounded_witness :
    (extract_topics "algebra geometry calculus probability").length ≤ 3 ∧
      ("algebra" ∈ all_keywords ∧
        pyContains "algebra" (pyLower "algebra geometry calculus probability") = true) :=
  ⟨(extract_topics_bounded "algebra geometry calculus probability").2.1,
    (extract_topics_bounded "algebra geometry calculus probability").2.2 "algebra"
      (by decide)⟩

/-- C6: after exactly 3 additions, `difficulty_trend` is computed from the
first vs. last of the (three) recorded difficulty samples under
beginner=1, intermediate=2, advanced=3: the sequence
[beginner, intermediate, advanced] yields "increasing",
[advanced, intermediate, beginner] yields "decreasing", and
[intermediate, advanced, intermediate] yields "stable". -/
theorem difficulty_trend_after_three (tb ti ta : Nat) (qb qi qa rb ri ra : String)
    (hb : estimate_difficulty qb = "beginner")
    (hi : estimate_difficulty qi = "intermediate")
    (ha : estimate_difficulty qa = "advanced") :
    (add_interaction ta qa ra (add_interaction ti qi ri
          (add_interaction tb qb rb memInit))).learning_patterns.difficulty_trend =
        some "increasing" ∧
      (add_interaction tb qb rb (add_interaction ti qi ri
          (add_interaction ta qa ra memInit))).learning_patterns.difficulty_trend =
        some "decreasing" ∧
      (add_interaction ti qi ri (add_interaction ta qa ra
          (add_interaction ti qi ri memInit))).learning_patterns.difficulty_trend =
        some "stable" := by
  refine ⟨?_, ?_, ?_⟩ <;>
    · simp [add_interaction, mkInteraction, update_learning_patterns, memInit,
        takeLast, hb, hi, ha, difficulty_value]
      rfl

/-- Witness for `difficulty_trend_after_three` at concrete queries of each
difficulty class. -/
theorem difficulty_trend_after_three_witness :
    (add_interaction 2 "analyze this" "r" (add_interaction 1 "hello" "r"
          (add_interaction 0 "what is x" "r" memInit))).learning_patterns.difficulty_trend =
        some "increasing" ∧
      (add_interaction 2 "what is x" "r" (add_interaction 1 "hello" "r"
          (add_interaction 0 "analyze this" "r" memInit))).learning_patterns.difficulty_trend =
        some "decreasing" ∧
      (add_interaction 2 "hello" "r" (add_interaction 1 "analyze this" "r"
          (add_interaction 0 "hello" "r" memInit))).learning_patterns.difficulty_trend =
        some "stable" :=
  difficulty_trend_after_three 0 1 2 "what is x" "hello" "analyze this" "r" "r" "r"
    (by decide) (by decide) (by decide)

theorem takeLast_of_le {l : List α} {n : Nat} (h : l.length ≤ n) :
    takeLast n l = l := by
  unfold takeLast
  rw [Nat.sub_eq_zero_of_le h, List.drop_zero]

/-- The trim `memory["interactions"][-50:]` applied only beyond the cap is
the unconditional last-50 window. -/
theorem trim_eq_takeLast (l : List α) :
    (if l.length > 50 then takeLast 50 l else l) = takeLast 50 l := by
  split_ifs with h
  · rfl
  · exact (takeLast_of_le (by omega)).symm

/-- Appending to an already-trimmed window and re-trimming is the same as
trimming the untrimmed log: the sliding window composes. -/
theorem takeLast_append_takeLast (n : Nat) (xs ys : List α) :
    takeLast n (takeLast n xs ++ ys) = takeLast n (xs ++ ys) := by
  unfold takeLast
  rcases le_or_lt xs.length n with h | h
  · rw [Nat.sub_eq_zero_of_le h, List.drop_zero]
  · rw [List.drop_append_eq_append_drop, List.drop_append_eq_append_drop,
      List.drop_drop, List.length_append, List.length_append, List.length_drop]
    congr 1 <;> congr 1 <;> omega

/-- One `add_interaction` call turns the log into the last-50 window of the
appended log. -/
theorem add_interaction_interactions (ts : Nat) (q r : String) (m : Memory) :
    (add_interaction ts q r m).interactions
      = takeLast 50 (m.interactions ++ [mkInteraction ts q r]) := by
  simp only [add_interaction]
  exact trim_eq_takeLast _

/-- The interaction log after any sequence of `add_interaction` calls on a
fresh store is exactly the last-50 window of all interactions ever added, in
insertion order. -/
theorem fold_add_interaction_takeLast (adds : List (Nat × String × String)) :
    ((adds.foldl (fun s a => add_interaction a.1 a.2.1 a.2.2 s) memInit).interactions)
      = takeLast 50 (adds.map (fun a => mkInteraction a.1 a.2.1 a.2.2)) := by
  induction adds using List.reverseRecOn with
  | nil => rfl
  | append_singleton as a ih =>
    rw [List.foldl_append, List.map_append]
    simp only [List.foldl_cons, List.foldl_nil]
    rw [add_interaction_interactions, ih, List.map_cons, List.map_nil,
      takeLast_append_takeLast]

/-- C1: the interaction log is a strict FIFO sliding window capped at 50:
after any sequence of `add_interaction` calls on a fresh store the log is the
last-50 window of everything added (hence always of length ≤ 50), and after
exactly 55 additions it holds exactly the 6th through 55th added
interactions, in their original insertion order. -/
theorem interactions_fifo_window_50 (adds : List (Nat × String × String)) :
    ((adds.foldl (fun s a => add_interaction a.1 a.2.1 a.2.2 s) memInit).interactions
        = takeLast 50 (adds.map (fun a => mkInteraction a.1 a.2.1 a.2.2))) ∧
      (adds.foldl (fun s a => add_interaction a.1 a.2.1 a.2.2 s)
          memInit).interactions.length ≤ 50 ∧
      (adds.length = 55 →
        (adds.foldl (fun s a => add_interaction a.1 a.2.1 a.2.2 s) memInit).interactions
          = (adds.map (fun a => mkInteraction a.1 a.2.1 a.2.2)).drop 5) := by
  refine ⟨fold_add_interaction_takeLast adds, ?_, ?_⟩
  · rw [fold_add_interaction_takeLast adds]
    unfold takeLast
    rw [List.length_drop]
    omega
  · intro h55
    rw [fold_add_interaction_takeLast adds]
    unfold takeLast
    rw [List.length_map, h55]

/-- Witness for `interactions_fifo_window_50`: 55 concrete additions leave
exactly the 6th through 55th interactions. -/
theorem interactions_fifo_window_50_witness :
    (((List.range 55).map (fun n => (n, "q", "r"))).foldl
          (fun s a => add_interaction a.1 a.2.1 a.2.2 s) memInit).interactions
      = ((((List.range 55).map (fun n => (n, "q", "r"))).map
            (fun a => mkInteraction a.1 a.2.1 a.2.2))).drop 5 :=
  (interactions_fifo_window_50 ((List.range 55).map (fun n => (n, "q", "r")))).2.2
    (by simp)

theorem maxAll_eq_zero_iff (l : List (String × Nat)) :
    maxAll l = 0 ↔ ∀ p ∈ l, p.2 = 0 := by
  induction l with
  | nil => simp [maxAll]
  | cons x xs ih => simp [maxAll, Nat.max_eq_zero_iff, ih]

theorem le_maxAll {l : List (String × Nat)} {p : String × Nat} (h : p ∈ l) :
    p.2 ≤ maxAll l := by
  induction l with
  | nil => cases h
  | cons x xs ih =>
    rcases List.mem_cons.mp h with rfl | h'
    · exact le_max_left _ _
    · exact le_trans (ih h') (le_max_right _ _)

theorem maxAll_attained (l : List (String × Nat)) (h : 0 < maxAll l) :
    ∃ p ∈ l, p.2 = maxAll l := by
  induction l with
  | nil => simp [maxAll] at h
  | cons x xs ih =>
    simp only [maxAll] at h ⊢
    rcases le_or_lt (maxAll xs) x.2 with hle | hlt
    · exact ⟨x, List.mem_cons_self _ _, (max_eq_left hle).symm⟩
    · obtain ⟨p, hp, he⟩ := ih (by omega)
      exact ⟨p, List.mem_cons_of_mem _ hp, by rw [max_eq_right hlt.le, he]⟩

/-- Python's left-to-right `max(..., key=...)` scan from a current best is
the first entry attaining the overall maximum (the current best when nothing
beats it strictly). -/
theorem pyMaxFrom_eq_find (l : List (String × Nat)) : ∀ acc : String × Nat,
    pyMaxFrom acc l =
      if maxAll l > acc.2 then
        (l.find? (fun p => p.2 == maxAll l)).getD acc
      else acc := by
  induction l with
  | nil => intro acc; simp [pyMaxFrom, maxAll]
  | cons x xs ih =>
    intro acc
    simp only [pyMaxFrom, maxAll]
    by_cases hx : x.2 > acc.2
    · rw [if_pos hx, ih x, if_pos (lt_of_lt_of_le hx (le_max_left _ _))]
      by_cases hxs : maxAll xs > x.2
      · have hxne : ¬ ((x.2 == maxAll xs) = true) := by
          simp only [beq_iff_eq]; omega
        rw [if_pos hxs, max_eq_right hxs.le,
          @List.find?_cons_of_neg _ (fun p => p.2 == maxAll xs) x xs hxne]
        obtain ⟨pa, hpa, hea⟩ := maxAll_attained xs (by omega)
        obtain ⟨pm, hfind⟩ := Option.isSome_iff_exists.mp
          ((@List.find?_isSome _ xs (fun p => p.2 == maxAll xs)).mpr
            ⟨pa, hpa, by simpa using hea⟩)
        rw [hfind]
        rfl
      · rw [if_neg hxs, max_eq_left (by omega),
          List.find?_cons_of_pos _ (by simp)]
        rfl
    · rw [if_neg hx, ih acc]
      have hx' : x.2 ≤ acc.2 := by omega
      by_cases hxs : maxAll xs > acc.2
      · have hxne : ¬ ((x.2 == maxAll xs) = true) := by
          simp only [beq_iff_eq]; omega
        rw [if_pos hxs, if_pos (lt_of_lt_of_le hxs (le_max_right _ _)),
          max_eq_right (by omega),
          @List.find?_cons_of_neg _ (fun p => p.2 == maxAll xs) x xs hxne]
      · rw [if_neg hxs, if_neg (by simp only [gt_iff_lt, not_lt, max_le_iff]; omega)]

/-- Entries with a zero score never displace a positive current best, so the
scan over the positive-score dict equals the scan over all scores. -/
theorem pyMaxFrom_filter_pos (l : List (String × Nat)) : ∀ acc : String × Nat,
    0 < acc.2 →
    pyMaxFrom acc (l.filter (fun p => p.2 > 0)) = pyMaxFrom acc l := by
  induction l with
  | nil => intro acc _; rfl
  | cons x xs ih =>
    intro acc hacc
    by_cases hx : x.2 > 0
    · simp only [List.filter_cons, decide_eq_true hx, pyMaxFrom]
      apply ih
      split_ifs with h
      · exact hx
      · exact hacc
    · have hx0 : x.2 = 0 := by omega
      simp only [List.filter_cons, decide_eq_false hx, Bool.false_eq_true,
        if_false, pyMaxFrom]
      rw [if_neg (by omega)]
      exact ih acc hacc

/-- The source's "keep positive scores, then first-max scan" equals the
spec's "first subject attaining the overall maximum, General when all
zero". -/
theorem py_first_max_eq (l : List (String × Nat)) :
    (match l.filter (fun p => p.2 > 0) with
      | [] => "General"
      | s :: ss => (pyMaxFrom s ss).1)
    = (if maxAll l = 0 then "General"
       else ((l.find? (fun p => p.2 == maxAll l)).map Prod.fst).getD "General") := by
  induction l with
  | nil => rfl
  | cons x xs ih =>
    by_cases hx : x.2 > 0
    · have hfc : (x :: xs).filter (fun p => p.2 > 0)
          = x :: xs.filter (fun p => p.2 > 0) := by
        simp [List.filter_cons, hx]
      rw [hfc]
      show (pyMaxFrom x (xs.filter (fun p => p.2 > 0))).1 = _
      rw [pyMaxFrom_filter_pos xs x hx, pyMaxFrom_eq_find xs x]
      have hmax : maxAll (x :: xs) = max x.2 (maxAll xs) := rfl
      have hnz : ¬ (maxAll (x :: xs) = 0) := by
        rw [hmax]; simp only [Nat.max_eq_zero_iff]; omega
      by_cases hxs : maxAll xs > x.2
      · have hxne : ¬ ((x.2 == maxAll (x :: xs)) = true) := by
          simp only [beq_iff_eq]; rw [hmax, max_eq_right hxs.le]; omega
        rw [if_pos hxs, if_neg hnz,
          @List.find?_cons_of_neg _ (fun p => p.2 == maxAll (x :: xs)) x xs hxne,
          hmax, max_eq_right hxs.le]
        obtain ⟨pa, hpa, hea⟩ := maxAll_attained xs (by omega)
        obtain ⟨pm, hfind⟩ := Option.isSome_iff_exists.mp
          ((@List.find?_isSome _ xs (fun p => p.2 == maxAll xs)).mpr
            ⟨pa, hpa, by simpa using hea⟩)
        rw [hfind]
        rfl
      · have hxeq : ((x.2 == maxAll (x :: xs)) = true) := by
          simp only [beq_iff_eq]; rw [hmax, max_eq_left (by omega)]
        rw [if_neg hxs, if_neg hnz,
          @List.find?_cons_of_pos _ (fun p => p.2 == maxAll (x :: xs)) x xs hxeq]
        rfl
    · have hx0 : x.2 = 0 := by omega
      have hfc : (x :: xs).filter (fun p => p.2 > 0)
          = xs.filter (fun p => p.2 > 0) := by
        simp [List.filter_cons, hx]
      rw [hfc]
      have hmax : maxAll (x :: xs) = maxAll xs := by
        show max x.2 (maxAll xs) = maxAll xs
        rw [hx0]; omega
      rw [ih, hmax]
      by_cases hz : maxAll xs = 0
      · rw [if_pos hz, if_pos hz]
      · have hxne : ¬ ((x.2 == maxAll xs) = true) := by
          simp only [beq_iff_eq]; omega
        rw [if_neg hz, if_neg hz,
          @List.find?_cons_of_neg _ (fun p => p.2 == maxAll xs) x xs hxne]

/-- C5: `identify_subject` refines the spec's description — it returns the
subject whose keyword list has the maximum substring hit count in the
lowered query, ties broken by the fixed 10-subject iteration order (first
maximum wins), and returns "General" exactly when every subject's count is
zero. -/
theorem identify_subject_first_max (q : String) :
    identify_subject q = spec_identify_subject q ∧
      (identify_subject q = "General" ↔
        ∀ p ∈ subject_keywords, countHits p.2 (pyLower q) = 0) := by
  have hmain : identify_subject q = spec_identify_subject q :=
    py_first_max_eq (subject_keywords.map (fun p => (p.1, countHits p.2 (pyLower q))))
  refine ⟨hmain, ?_, ?_⟩
  · intro hg
    by_contra hne
    push_neg at hne
    obtain ⟨p, hp, hcp⟩ := hne
    rw [hmain] at hg
    unfold spec_identify_subject at hg
    set counts := subject_keywords.map (fun p => (p.1, countHits p.2 (pyLower q)))
      with hcounts
    have hmem : (p.1, countHits p.2 (pyLower q)) ∈ counts :=
      List.mem_map.mpr ⟨p, hp, rfl⟩
    have hpos : 0 < maxAll counts :=
      lt_of_lt_of_le (Nat.pos_of_ne_zero hcp) (le_maxAll hmem)
    rw [if_neg (by omega)] at hg
    obtain ⟨pa, hpa, hea⟩ := maxAll_attained counts hpos
    obtain ⟨pm, hfind⟩ := Option.isSome_iff_exists.mp
      ((@List.find?_isSome _ counts (fun p => p.2 == maxAll counts)).mpr
        ⟨pa, hpa, by simpa using hea⟩)
    rw [hfind] at hg
    simp only [Option.map_some', Option.getD_some] at hg
    have hpmmem := List.mem_of_find?_eq_some hfind
    have h1 : pm.1 ∈ counts.map Prod.fst := List.mem_map_of_mem _ hpmmem
    have h2 : counts.map Prod.fst = subject_keywords.map Prod.fst := by
      rw [hcounts, List.map_map]; rfl
    rw [h2, hg] at h1
    exact absurd h1 (by decide)
  · intro hz
    rw [hmain]
    unfold spec_identify_subject
    rw [if_pos ((maxAll_eq_zero_iff _).mpr ?_)]
    intro p hp
    obtain ⟨p0, hp0, rfl⟩ := List.mem_map.mp hp
    exact hz p0 hp0

/-- Witness for `identify_subject_first_max`: a query with no subject
keyword at all classifies as "General". -/
theorem identify_subject_first_max_witness :
    identify_subject "Good morning friend" = "General" :=
  (identify_subject_first_max "Good morning friend").2.mpr (by decide)

/-- For a valid codepoint, `Char.ofNat` round-trips through `Char.toNat`. -/
theorem toNat_ofNat_of_valid (n : Nat) (h : n.isValidChar) :
    (Char.ofNat n).toNat = n := by
  unfold Char.ofNat
  rw [dif_pos h]
  rfl

/-- ASCII lowering never produces the uppercase letter 'D'. -/
theorem lowerChar_ne_upper_D (c : Char) : lowerChar c ≠ 'D' := by
  intro h
  unfold lowerChar at h
  split_ifs at h with hc
  · have h2 := congrArg Char.toNat h
    have h65 : 65 ≤ c.toNat := hc.1
    have h90 : c.toNat ≤ 90 := hc.2
    rw [toNat_ofNat_of_valid _ (by left; omega)] at h2
    have hD : ('D' : Char).toNat = 68 := by decide
    omega
  · subst h
    exact hc (by decide)

/-- A lowered query never contains "DNA" as a substring. -/
theorem pyLower_no_DNA (s : String) : pyContains "DNA" (pyLower s) = false := by
  by_contra h
  rw [Bool.not_eq_false] at h
  unfold pyContains isSubstrL at h
  rw [List.any_eq_true] at h
  obtain ⟨i, _, hpre⟩ := h
  rw [List.isPrefixOf_iff_prefix] at hpre
  obtain ⟨t, ht⟩ := hpre
  have hD : 'D' ∈ (pyLower s).data := by
    have hmem : 'D' ∈ (pyLower s).data.drop i := by
      rw [← ht, show ("DNA" : String).data = ['D', 'N', 'A'] from rfl]
      simp
    exact List.IsSuffix.mem hmem (List.drop_suffix i _)
  have hex : ∃ c ∈ s.data, lowerChar c = 'D' := by
    simpa [pyLower, List.mem_map] using hD
  obtain ⟨c, _, hc⟩ := hex
  exact lowerChar_ne_upper_D c hc

/-- C10: the Biology keyword "DNA" is stored uppercase while the query is
lowercased before the case-sensitive substring test, so "DNA" never
contributes to any subject score; consequently a query whose only keyword
occurrence is "DNA"/"dna" (all other keywords missing) classifies as
"General". -/
theorem dna_keyword_never_matches (q : String) :
    pyContains "DNA" (pyLower q) = false ∧
      ((∀ p ∈ subject_keywords, ∀ kw ∈ p.2, kw ≠ "DNA" →
          pyContains kw (pyLower q) = false) →
        identify_subject q = "General") := by
  refine ⟨pyLower_no_DNA q, ?_⟩
  intro hother
  have hzero : ∀ p ∈ subject_keywords, countHits p.2 (pyLower q) = 0 := by
    intro p hp
    simp only [countHits, List.length_eq_zero]
    rw [List.filter_eq_nil_iff]
    intro kw hkw
    by_cases hd : kw = "DNA"
    · subst hd; simp [pyLower_no_DNA q]
    · simp [hother p hp kw hkw hd]
  have hm0 : maxAll (subject_keywords.map
      (fun p => (p.1, countHits p.2 (pyLower q)))) = 0 := by
    rw [maxAll_eq_zero_iff]
    intro p hp
    obtain ⟨p0, hp0, rfl⟩ := List.mem_map.mp hp
    exact hzero p0 hp0
  exact (py_first_max_eq _).trans (if_pos hm0)

/-- Witness for `dna_keyword_never_matches`: "What is DNA?" contains no
lowercase subject keyword, so it classifies as "General" although it
mentions DNA. -/
theorem dna_keyword_never_matches_witness :
    pyContains "DNA" (pyLower "What is DNA?") = false ∧
      identify_subject "What is DNA?" = "General" :=
  ⟨(dna_keyword_never_matches "What is DNA?").1,
    (dna_keyword_never_matches "What is DNA?").2 (by decide)⟩

end AICoach
